import Mathlib

/-!
A shallow embedding, in Lean 4, of `scrapy/http/request/__init__.py`:
the `Request` value type (validating constructor, accessors, `replace`,
`copy`, `from_curl`, `to_dict`) and the serialization helper
`_find_method`.  External collaborators that the module imports
(`w3lib.url.safe_url_string`, `scrapy.utils.url.escape_ajax`,
`scrapy.utils.python.to_bytes`, `scrapy.http.headers.Headers`,
`scrapy.utils.curl.curl_to_request_kwargs`) are modelled from the
specification, as noted on each definition.
-/

set_option autoImplicit false
set_option maxRecDepth 4096

/-- Python byte strings, modelled as lists of byte values. -/
abbrev Bytes := List Nat

/-- Python dicts with string keys (used for `meta` and `cb_kwargs`);
the values are opaque to this module, modelled as strings. -/
abbrev Dict := List (String × String)

/-- A Python callable as `Request` sees it: either a plain function
(no `__func__` attribute; this covers lambdas and `NO_CALLBACK`) or a
bound instance method.  A bound method carries the identity of its
underlying unbound function (`__func__`, the `funcId`) and the identity
of the bound-method wrapper object (`wrapperId`), which Python creates
afresh on every attribute access.  `rep` models `repr(func)`, used only
in error messages. -/
inductive PyCallable
  | plainFn (id : Nat) (rep : String)
  | boundMethod (funcId : Nat) (wrapperId : Nat) (rep : String)
deriving DecidableEq, Repr

/-- `repr(func)` for error messages. -/
def PyCallable.reprStr : PyCallable → String
  | .plainFn _ r => r
  | .boundMethod _ _ r => r

/-- `hasattr(func, "__func__")`: only bound instance methods have it. -/
def PyCallable.hasFuncAttr : PyCallable → Bool
  | .plainFn _ _ => false
  | .boundMethod _ _ _ => true

/-- The sentinel callback `NO_CALLBACK` from the source module: a plain
module-level function (its body raises when called), so it has no
`__func__` attribute.  We reserve function identity `0` for it. -/
def NO_CALLBACK : PyCallable := .plainFn 0 "<function NO_CALLBACK>"

/-- The owner object (`spider`) searched by `_find_method`:
`inspect.getmembers(obj, predicate=inspect.ismethod)` is modelled as the
list `members` of (method name, `__func__` identity) pairs, in
`getmembers` order.  `reprStr` models `repr(obj)` for error messages. -/
structure Spider where
  reprStr : String
  members : List (String × Nat)
deriving DecidableEq, Repr

/-- `repr(obj)` where the owner may be `None`. -/
def spiderRepr : Option Spider → String
  | none => "None"
  | some sp => sp.reprStr

/-- The exceptions this module raises. -/
inductive ReqError
  | typeError (msg : String)
  | valueError (msg : String)
deriving DecidableEq, Repr

/-! ### Character and string helpers (Python `str.upper`, percent escaping) -/

/-- `(Char.ofNat n).toNat = n` for code points below the surrogate range. -/
theorem toNat_ofNat_small (n : Nat) (h : n < 55296) : (Char.ofNat n).toNat = n := by
  have hv : Nat.isValidChar n := Or.inl h
  simp [Char.ofNat, hv]
  rfl

/-- One character of Python `str.upper` (restricted to ASCII, as the
model of strings in this development is ASCII-oriented). -/
def upChar (c : Char) : Char :=
  if 97 ≤ c.toNat ∧ c.toNat ≤ 122 then Char.ofNat (c.toNat - 32) else c

/-- Model of Python `str(s).upper()` on strings. -/
def pyUpper (s : String) : String := ⟨s.data.map upChar⟩

theorem upChar_idem (c : Char) : upChar (upChar c) = upChar c := by
  unfold upChar
  by_cases h : 97 ≤ c.toNat ∧ c.toNat ≤ 122
  · have hlt : c.toNat - 32 < 55296 := by omega
    simp only [if_pos h, toNat_ofNat_small _ hlt]
    have hn : ¬ (97 ≤ c.toNat - 32 ∧ c.toNat - 32 ≤ 122) := by omega
    rw [if_neg hn]
  · simp [h]

theorem pyUpper_idem (s : String) : pyUpper (pyUpper s) = pyUpper s := by
  unfold pyUpper
  have hc : upChar ∘ upChar = upChar := funext upChar_idem
  rw [List.map_map, hc]

/-- Hex digit characters (uppercase), for percent escapes. -/
def hexDig (n : Nat) : Char :=
  if n < 10 then Char.ofNat (48 + n) else Char.ofNat (55 + n)

/-- The percent escape `%XX` of one character (the model keeps a single
byte, `c.toNat % 256`; the real library emits one escape per encoded
byte of the character). -/
def pctEncode (c : Char) : List Char :=
  ['%', hexDig (c.toNat % 256 / 16), hexDig (c.toNat % 16)]

/-- Punctuation that `safe_url_string` leaves unescaped. -/
def safePunct : List Char :=
  ['%', '/', '?', ':', '@', '&', '=', '+', '$', ',', '#', '!', '*',
   '(', ')', '[', ']', ';', '~', '_', '-', '.', '|']

/-- Characters that survive the safety-encoding pass unescaped:
ASCII letters, digits, and the safe punctuation. -/
def safeChar (c : Char) : Bool :=
  decide (65 ≤ c.toNat ∧ c.toNat ≤ 90) ||
  decide (97 ≤ c.toNat ∧ c.toNat ≤ 122) ||
  decide (48 ≤ c.toNat ∧ c.toNat ≤ 57) ||
  safePunct.contains c

/-- Percent-escape every unsafe character of a character list. -/
def quoteSafe : List Char → List Char
  | [] => []
  | c :: cs => (if safeChar c then [c] else pctEncode c) ++ quoteSafe cs

/-- Modelled from the spec: `w3lib.url.safe_url_string` (an external
collaborator, not part of this repository) — "apply a safety-encoding
pass (percent-escaping using the request's encoding)".  The model
percent-escapes every unsafe character; the encoding argument is kept
for the data flow (the constructor passes the request's declared
encoding) but the escape of the model is byte-for-code-point. -/
def safe_url_string (s : String) (_encoding : String) : String :=
  ⟨quoteSafe s.data⟩

theorem safeChar_hexDig (n : Nat) (h : n < 16) : safeChar (hexDig n) = true := by
  unfold hexDig safeChar
  by_cases h10 : n < 10
  · have hlt : 48 + n < 55296 := by omega
    simp only [if_pos h10, toNat_ofNat_small _ hlt]
    have : 48 ≤ 48 + n ∧ 48 + n ≤ 57 := by omega
    simp [this]
  · have hlt : 55 + n < 55296 := by omega
    simp only [if_neg h10, toNat_ofNat_small _ hlt]
    have : 65 ≤ 55 + n ∧ 55 + n ≤ 90 := by omega
    simp [this]

theorem hexDig_ne_hash (n : Nat) (h : n < 16) : hexDig n ≠ '#' := by
  unfold hexDig
  have h35 : ('#').toNat = 35 := rfl
  by_cases h10 : n < 10
  · rw [if_pos h10]
    intro he
    have ht := congrArg Char.toNat he
    rw [toNat_ofNat_small _ (by omega), h35] at ht
    omega
  · rw [if_neg h10]
    intro he
    have ht := congrArg Char.toNat he
    rw [toNat_ofNat_small _ (by omega), h35] at ht
    omega

theorem safeChar_mem_pctEncode (c d : Char) (h : d ∈ pctEncode c) :
    safeChar d = true := by
  simp only [pctEncode, List.mem_cons, List.not_mem_nil, or_false] at h
  rcases h with rfl | rfl | rfl
  · decide
  · exact safeChar_hexDig _ (by omega)
  · exact safeChar_hexDig _ (by omega)

theorem safeChar_mem_quoteSafe (l : List Char) (d : Char) (h : d ∈ quoteSafe l) :
    safeChar d = true := by
  induction l with
  | nil => cases h
  | cons c cs ih =>
    unfold quoteSafe at h
    rcases List.mem_append.mp h with h1 | h2
    · by_cases hc : safeChar c
      · simp [hc] at h1
        subst h1; exact hc
      · simp [hc] at h1
        exact safeChar_mem_pctEncode c d h1
    · exact ih h2

theorem quoteSafe_of_safe (l : List Char) (h : ∀ c ∈ l, safeChar c = true) :
    quoteSafe l = l := by
  induction l with
  | nil => rfl
  | cons c cs ih =>
    unfold quoteSafe
    have hc : safeChar c = true := h c (List.mem_cons_self c cs)
    simp [hc, ih fun d hd => h d (List.mem_cons_of_mem c hd)]

/-! ### The ajax-fragment rewrite (`escape_ajax`) -/

/-- Split a character list at its first `#`: the part before it and,
when a `#` exists, the fragment after it. -/
def splitFirstHash : List Char → List Char × Option (List Char)
  | [] => ([], none)
  | c :: cs =>
    if c = '#' then ([], some cs)
    else
      let p := splitFirstHash cs
      (c :: p.1, p.2)

/-- Characters the fragment quoting leaves unescaped (alphanumerics and
`_ - . ~`, as in url-encoding of a query value). -/
def fragSafe (c : Char) : Bool :=
  decide (65 ≤ c.toNat ∧ c.toNat ≤ 90) ||
  decide (97 ≤ c.toNat ∧ c.toNat ≤ 122) ||
  decide (48 ≤ c.toNat ∧ c.toNat ≤ 57) ||
  decide (c ∈ ['_', '-', '.', '~'])

/-- Percent-quote a fragment for use as a query-string value. -/
def quoteFrag : List Char → List Char
  | [] => []
  | c :: cs => (if fragSafe c then [c] else pctEncode c) ++ quoteFrag cs

/-- The query key that an ajax fragment is rewritten into. -/
def escapedFragmentTag : List Char := "_escaped_fragment_=".data

/-- Core of the ajax rewrite, on character lists: when the first `#` is
followed by `!`, drop the fragment and append it, quoted, as an
`_escaped_fragment_` query value; otherwise leave the url unchanged. -/
def escapeAjax (l : List Char) : List Char :=
  match splitFirstHash l with
  | (_, none) => l
  | (base, some f) =>
    if f.head? = some '!' then
      base ++ (if base.contains '?' then ['&'] else ['?']) ++
        escapedFragmentTag ++ quoteFrag f.tail
    else l

/-- Modelled from the spec: `scrapy.utils.url.escape_ajax` (code of this
repository that is not under src/) — "an ajax-fragment rewrite (rewrite
`#!` fragment markers into a query-string convention)". -/
def escape_ajax (s : String) : String := ⟨escapeAjax s.data⟩

/-- The full url normalization the constructor applies to its input:
safety-encoding then ajax-fragment escaping. -/
def normUrl (encoding : String) (s : String) : String :=
  escape_ajax (safe_url_string s encoding)

theorem splitFirstHash_of_not_mem (l : List Char) (h : '#' ∉ l) :
    splitFirstHash l = (l, none) := by
  induction l with
  | nil => rfl
  | cons c cs ih =>
    have hc : ¬ c = '#' := fun he => h (he ▸ List.mem_cons_self c cs)
    have hcs : '#' ∉ cs := fun hm => h (List.mem_cons_of_mem c hm)
    simp [splitFirstHash, hc, ih hcs]

theorem splitFirstHash_decomp (l b f : List Char)
    (h : splitFirstHash l = (b, some f)) : l = b ++ '#' :: f ∧ '#' ∉ b := by
  induction l generalizing b with
  | nil => simp [splitFirstHash] at h
  | cons c cs ih =>
    by_cases hc : c = '#'
    · subst hc
      simp [splitFirstHash] at h
      rcases h with ⟨rfl, rfl⟩
      simp
    · simp [splitFirstHash, hc] at h
      rcases h with ⟨rfl, hp⟩
      have hsplit : splitFirstHash cs = ((splitFirstHash cs).1, some f) := by
        rw [← hp]
      rcases ih _ hsplit with ⟨hdec, hnm⟩
      constructor
      · simpa using hdec
      · intro hmem
        rcases List.mem_cons.mp hmem with he | hm
        · exact hc he.symm
        · exact hnm hm

theorem mem_quoteFrag (f : List Char) (d : Char) (h : d ∈ quoteFrag f) :
    safeChar d = true ∧ d ≠ '#' := by
  induction f with
  | nil => cases h
  | cons c cs ih =>
    unfold quoteFrag at h
    rcases List.mem_append.mp h with h1 | h2
    · by_cases hc : fragSafe c
      · simp [hc] at h1
        subst h1
        revert hc
        unfold fragSafe safeChar safePunct
        intro hc
        rcases Bool.or_eq_true _ _ |>.mp hc with hr | hlist
        · rcases Bool.or_eq_true _ _ |>.mp hr with hr2 | hd
          · rcases Bool.or_eq_true _ _ |>.mp hr2 with ha | hb
            · refine ⟨by simp [of_decide_eq_true ha], ?_⟩
              have := of_decide_eq_true ha
              intro he
              rw [he] at this
              simp at this
            · refine ⟨by simp [of_decide_eq_true hb], ?_⟩
              have := of_decide_eq_true hb
              intro he
              rw [he] at this
              simp at this
          · refine ⟨by simp [of_decide_eq_true hd], ?_⟩
            have := of_decide_eq_true hd
            intro he
            rw [he] at this
            simp at this
        · have hm := of_decide_eq_true hlist
          simp at hm
          rcases hm with rfl | rfl | rfl | rfl <;> exact ⟨by decide, by decide⟩
      · simp [hc] at h1
        constructor
        · exact safeChar_mem_pctEncode c d h1
        · simp only [pctEncode, List.mem_cons, List.not_mem_nil, or_false] at h1
          rcases h1 with rfl | rfl | rfl
          · decide
          · exact hexDig_ne_hash _ (by omega)
          · exact hexDig_ne_hash _ (by omega)
    · exact ih h2

theorem escapeAjax_eq_none (l b : List Char) (h : splitFirstHash l = (b, none)) :
    escapeAjax l = l := by
  unfold escapeAjax
  rw [h]

theorem escapeAjax_eq_some (l b f : List Char) (h : splitFirstHash l = (b, some f)) :
    escapeAjax l =
      if f.head? = some '!' then
        b ++ (if b.contains '?' then ['&'] else ['?']) ++
          escapedFragmentTag ++ quoteFrag f.tail
      else l := by
  unfold escapeAjax
  rw [h]

theorem escapeAjax_of_not_mem (l : List Char) (h : '#' ∉ l) : escapeAjax l = l :=
  escapeAjax_eq_none l l (splitFirstHash_of_not_mem l h)

theorem safeChar_mem_escapeAjax (l : List Char) (hl : ∀ c ∈ l, safeChar c = true)
    (d : Char) (hd : d ∈ escapeAjax l) : safeChar d = true := by
  rcases hp : splitFirstHash l with ⟨b, o⟩
  cases o with
  | none =>
    rw [escapeAjax_eq_none l b hp] at hd
    exact hl d hd
  | some f =>
    rw [escapeAjax_eq_some l b f hp] at hd
    by_cases hh : f.head? = some '!'
    · rw [if_pos hh] at hd
      rcases splitFirstHash_decomp l b f hp with ⟨hdec, -⟩
      rcases List.mem_append.mp hd with hd1 | hd4
      · rcases List.mem_append.mp hd1 with hd2 | hd3
        · rcases List.mem_append.mp hd2 with hb | hsep
          · exact hl d (hdec ▸ List.mem_append_left _ hb)
          · by_cases hq : b.contains '?'
            · rw [if_pos hq] at hsep
              simp at hsep
              subst hsep
              decide
            · rw [if_neg hq] at hsep
              simp at hsep
              subst hsep
              decide
        · have htag : ∀ x ∈ escapedFragmentTag, safeChar x = true := by decide
          exact htag d hd3
      · exact (mem_quoteFrag _ d hd4).1
    · rw [if_neg hh] at hd
      exact hl d hd

theorem escapeAjax_escapeAjax (l : List Char) :
    escapeAjax (escapeAjax l) = escapeAjax l := by
  rcases hp : splitFirstHash l with ⟨b, o⟩
  cases o with
  | none =>
    have h1 := escapeAjax_eq_none l b hp
    rw [h1]
    exact h1
  | some f =>
    have h1 := escapeAjax_eq_some l b f hp
    by_cases hh : f.head? = some '!'
    · rw [if_pos hh] at h1
      have hnm : '#' ∉ b ++ (if b.contains '?' then ['&'] else ['?']) ++
          escapedFragmentTag ++ quoteFrag f.tail := by
        intro hmem
        rcases List.mem_append.mp hmem with hd1 | hd4
        · rcases List.mem_append.mp hd1 with hd2 | hd3
          · rcases List.mem_append.mp hd2 with hb | hsep
            · exact (splitFirstHash_decomp l b f hp).2 hb
            · by_cases hq : b.contains '?'
              · rw [if_pos hq] at hsep
                simp at hsep
              · rw [if_neg hq] at hsep
                simp at hsep
          · have : ('#' ∈ escapedFragmentTag) = False := by decide
            rw [this] at hd3
            exact hd3
        · exact (mem_quoteFrag _ '#' hd4).2 rfl
      rw [h1]
      exact escapeAjax_of_not_mem _ hnm
    · rw [if_neg hh] at h1
      rw [h1]
      exact h1

/-- The composed url normalization is idempotent: re-normalizing an
already-normalized url leaves it unchanged. -/
theorem normUrl_idem (enc enc2 : String) (s : String) :
    normUrl enc2 (normUrl enc s) = normUrl enc s := by
  show (⟨escapeAjax (quoteSafe (escapeAjax (quoteSafe s.data)))⟩ : String) =
    ⟨escapeAjax (quoteSafe s.data)⟩
  have hv : ∀ c ∈ quoteSafe s.data, safeChar c = true :=
    fun c hc => safeChar_mem_quoteSafe _ c hc
  have hu : ∀ c ∈ escapeAjax (quoteSafe s.data), safeChar c = true :=
    fun c hc => safeChar_mem_escapeAjax _ hv c hc
  rw [quoteSafe_of_safe _ hu, escapeAjax_escapeAjax]

/-! ### Scheme check, body encoding, headers, cookies -/

/-- Python `pat in s` for strings. -/
def strContains (s : String) (pat : String) : Bool :=
  s.data.tails.any (fun t => pat.data.isPrefixOf t)

/-- Python `s.startswith(p)` (on the character lists, so that it
computes by structural recursion). -/
def strStartsWith (p : String) (s : String) : Bool :=
  p.data.isPrefixOf s.data

/-- The scheme condition checked by `_set_url`:
`"://" in url or url.startswith("about:") or url.startswith("data:")`. -/
def hasScheme (u : String) : Bool :=
  strContains u "://" || strStartsWith "about:" u || strStartsWith "data:" u

/-- The utf-8 byte sequence of one code point, computed structurally. -/
def encodeChar (n : Nat) : List Nat :=
  if n < 128 then [n]
  else if n < 2048 then [192 + n / 64, 128 + n % 64]
  else if n < 65536 then [224 + n / 4096, 128 + n / 64 % 64, 128 + n % 64]
  else [240 + n / 262144, 128 + n / 4096 % 64, 128 + n / 64 % 64, 128 + n % 64]

/-- Modelled from the spec: the byte encoding of a string under the
request's declared encoding (`str.encode(encoding)`, used by
`scrapy.utils.python.to_bytes` and by headers normalization).  Every
codec is modelled with the utf-8 byte layout; the codec name is kept in
the signature because the constructor's data flow (which encoding is
applied where) is part of what the claims check. -/
def pyEncode (_encoding : String) (s : String) : Bytes :=
  s.data.foldr (fun c acc => encodeChar c.toNat ++ acc) []

/-- The `body` argument: `Optional[Union[bytes, str]]`. -/
inductive BodyInput
  | pynone
  | str (s : String)
  | bytes (b : Bytes)
deriving DecidableEq, Repr

/-- Modelled from the spec: `scrapy.utils.python.to_bytes` (code of this
repository that is not under src/) — return `bytes` unchanged and encode
`str` with the given encoding. -/
def to_bytes (b : BodyInput) (encoding : String) : Bytes :=
  match b with
  | .pynone => []
  | .str s => pyEncode encoding s
  | .bytes bs => bs

/-- Modelled from the spec: `scrapy.http.headers.Headers` (code of this
repository that is not under src/) — "ordered multi-map of
name→value(s), case-insensitive keys, encoding-aware (values normalized
to a byte-safe form using the request's encoding)".  The stored form is
an ordered list of (normalized key, value bytes) pairs. -/
abbrev Headers := List (String × Bytes)

/-- Normalization of a header key (case-insensitivity is realized by
normalizing every key with Python `str.upper`, an involutive
case-folding; the real class uses `str.title`). -/
def headerNormKey (k : String) : String := pyUpper k

/-- The `headers` constructor argument: a mapping of string names to
string values, or an already-constructed `Headers` object. -/
inductive HeadersInput
  | map (m : List (String × String))
  | hdrs (h : Headers)
deriving DecidableEq, Repr

/-- Modelled from the spec: the `Headers(headers or {}, encoding=...)`
construction — a fresh mapping normalizes each key and encodes each
value with the request's encoding; constructing from an existing
`Headers` object preserves its (already normalized) entries. -/
def mkHeaders (encoding : String) : HeadersInput → Headers
  | .map m => m.map (fun kv => (headerNormKey kv.1, pyEncode encoding kv.2))
  | .hdrs h => h

/-- Python truthiness of a headers value. -/
def HeadersInput.truthy : HeadersInput → Bool
  | .map m => !m.isEmpty
  | .hdrs h => !h.isEmpty

/-- `cookies`: a single dict or a list of dicts. -/
inductive Cookies
  | dict (d : List (String × String))
  | list (l : List (List (String × String)))
deriving DecidableEq, Repr

/-- Python truthiness of a cookies value. -/
def Cookies.truthy : Cookies → Bool
  | .dict d => !d.isEmpty
  | .list l => !l.isEmpty

/-! ### Constructor arguments -/

/-- The `url` argument: a string, or a value of any other type (carrying
`type(url).__name__` for the error message). -/
inductive UrlInput
  | str (s : String)
  | nonStr (tyName : String)
deriving DecidableEq, Repr

/-- The `method` argument: a string, or a value of any other type
(carrying its `str()` conversion, which is all `__init__` uses). -/
inductive MethodInput
  | str (s : String)
  | other (strConv : String)
deriving DecidableEq, Repr

/-- Python `str(method)`. -/
def MethodInput.toStr : MethodInput → String
  | .str s => s
  | .other s => s

/-- The `priority` argument: an `int` (Python `bool` is a subclass of
`int`, so it is covered by `int`), or a value of any other type
(carrying `repr(priority)` for the error message). -/
inductive PriorityInput
  | int (n : Int)
  | nonInt (rep : String)
deriving DecidableEq, Repr

/-- The `callback`/`errback` arguments: `None`, a callable, or a
non-callable value (carrying `type(x).__name__` for the error
message). -/
inductive CallbackInput
  | pynone
  | callable (c : PyCallable)
  | nonCallable (tyName : String)
deriving DecidableEq, Repr

/-- The keyword arguments of `Request.__init__`, with the defaults of
the source. -/
structure InitArgs where
  url : UrlInput
  callback : CallbackInput := .pynone
  method : MethodInput := .str "GET"
  headers : Option HeadersInput := none
  body : BodyInput := .pynone
  cookies : Option Cookies := none
  meta : Option Dict := none
  encoding : String := "utf-8"
  priority : PriorityInput := .int 0
  dont_filter : Bool := false
  errback : CallbackInput := .pynone
  flags : Option (List String) := none
  cb_kwargs : Option Dict := none
deriving DecidableEq, Repr

/-! ### The Request object -/

/-- The state of a constructed `Request`.  Fields prefixed with `_` are
the private attributes behind properties, exactly as in the source
(`meta`/`cb_kwargs` store `None` until materialized by their
accessor). -/
structure Request where
  _encoding : String
  method : String
  _url : String
  _body : Bytes
  priority : Int
  callback : Option PyCallable
  errback : Option PyCallable
  cookies : Cookies
  headers : Headers
  dont_filter : Bool
  _meta : Option Dict
  _cb_kwargs : Option Dict
  flags : List String
deriving DecidableEq, Repr

/-- The `Request.attributes` tuple from the source: the declared
attribute set that `replace`, `to_dict` and reconstruction operate
over. -/
def Request.attributes : List String :=
  ["url", "callback", "method", "headers", "body", "cookies", "meta",
   "encoding", "priority", "dont_filter", "errback", "flags", "cb_kwargs"]

/-- `dict(meta) if meta else None` — an absent or empty (falsy) mapping
is stored as `None`; a non-empty one is stored (as a fresh copy). -/
def storedMeta : Option Dict → Option Dict
  | some d => if d.isEmpty then none else some d
  | none => none

/-- `cookies or {}`. -/
def storedCookies : Option Cookies → Cookies
  | some c => if c.truthy then c else .dict []
  | none => .dict []

/-- `Headers(headers or {}, encoding=encoding)`. -/
def storedHeaders (encoding : String) : Option HeadersInput → Headers
  | some hi => if hi.truthy then mkHeaders encoding hi else mkHeaders encoding (.map [])
  | none => mkHeaders encoding (.map [])

/-- `[] if flags is None else list(flags)`. -/
def storedFlags : Option (List String) → List String
  | none => []
  | some l => l

/-- The `callable(x) or x is None` check shared by `callback` and
`errback`. -/
def checkCallback (c : CallbackInput) (label : String) :
    Except ReqError (Option PyCallable) :=
  match c with
  | .pynone => .ok none
  | .callable f => .ok (some f)
  | .nonCallable ty => .error (.typeError (label ++ " must be a callable, got " ++ ty))

/-- `Request.__init__`, step by step in source order, also returning the
list of fields processed (normalized and assigned) before the outcome:
`self._encoding` is set first, then `self.method = str(method).upper()`,
then `_set_url`, `_set_body`, the `priority` check, the
`callback`/`errback` checks, and finally the never-failing fields. -/
def Request.initTrace (a : InitArgs) : Except ReqError Request × List String :=
  let tr2 := ["encoding", "method"]
  let method := pyUpper a.method.toStr
  match a.url with
  | .nonStr ty => (.error (.typeError ("Request url must be str, got " ++ ty)), tr2)
  | .str s =>
    let u := normUrl a.encoding s
    if hasScheme u then
      let tr4 := tr2 ++ ["url", "body"]
      let body := match a.body with
        | .pynone => ([] : Bytes)
        | b => to_bytes b a.encoding
      match a.priority with
      | .nonInt rep =>
        (.error (.typeError ("Request priority not an integer: " ++ rep)), tr4)
      | .int n =>
        let tr5 := tr4 ++ ["priority"]
        match checkCallback a.callback "callback" with
        | .error e => (.error e, tr5)
        | .ok cb =>
          let tr6 := tr5 ++ ["callback"]
          match checkCallback a.errback "errback" with
          | .error e => (.error e, tr6)
          | .ok eb =>
            (.ok {
              _encoding := a.encoding
              method := method
              _url := u
              _body := body
              priority := n
              callback := cb
              errback := eb
              cookies := storedCookies a.cookies
              headers := storedHeaders a.encoding a.headers
              dont_filter := a.dont_filter
              _meta := storedMeta a.meta
              _cb_kwargs := storedMeta a.cb_kwargs
              flags := storedFlags a.flags
            }, tr6 ++ ["errback", "cookies", "headers", "dont_filter",
                       "meta", "cb_kwargs", "flags"])
    else (.error (.valueError ("Missing scheme in request url: " ++ u)), tr2)

/-- `Request(...)`: the outcome of construction. -/
def Request.init (a : InitArgs) : Except ReqError Request :=
  (Request.initTrace a).1

/-- The `meta` property: materializes an empty dict on first access
(it mutates `self`, so the accessor returns the read value together
with the post-access object). -/
def Request.metaAccess (r : Request) : Dict × Request :=
  match r._meta with
  | none => ([], { r with _meta := some [] })
  | some d => (d, r)

/-- The `cb_kwargs` property, same lazy materialization as `meta`. -/
def Request.cbKwargsAccess (r : Request) : Dict × Request :=
  match r._cb_kwargs with
  | none => ([], { r with _cb_kwargs := some [] })
  | some d => (d, r)

/-- The read-only `url` property. -/
def Request.url (r : Request) : String := r._url

/-- The read-only `body` property. -/
def Request.body (r : Request) : Bytes := r._body

/-- The read-only `encoding` property. -/
def Request.encoding (r : Request) : String := r._encoding

/-! ### replace / copy -/

/-- A keyword-argument mapping over the constructor parameters: `some`
means the key is present.  Used both for the overrides of `replace` and
for the parsed/explicit argument dicts of `from_curl`. -/
structure KwArgs where
  url : Option UrlInput := none
  callback : Option CallbackInput := none
  method : Option MethodInput := none
  headers : Option (Option HeadersInput) := none
  body : Option BodyInput := none
  cookies : Option (Option Cookies) := none
  meta : Option (Option Dict) := none
  encoding : Option String := none
  priority : Option PriorityInput := none
  dont_filter : Option Bool := none
  errback : Option CallbackInput := none
  flags : Option (Option (List String)) := none
  cb_kwargs : Option (Option Dict) := none
deriving DecidableEq, Repr

/-- A stored callback read back as a constructor argument. -/
def cbToInput : Option PyCallable → CallbackInput
  | none => .pynone
  | some c => .callable c

/-- `kwargs.setdefault(x, getattr(self, x))` for every declared
attribute: the merged constructor arguments used by `replace`.  The
values come through the public accessors, exactly as `getattr` does
(so `meta`/`cb_kwargs` read as their materialized mappings). -/
def Request.replaceArgs (r : Request) (kw : KwArgs) : InitArgs where
  url := kw.url.getD (.str r._url)
  callback := kw.callback.getD (cbToInput r.callback)
  method := kw.method.getD (.str r.method)
  headers := kw.headers.getD (some (.hdrs r.headers))
  body := kw.body.getD (.bytes r._body)
  cookies := kw.cookies.getD (some r.cookies)
  meta := kw.meta.getD (some (r._meta.getD []))
  encoding := kw.encoding.getD r._encoding
  priority := kw.priority.getD (.int r.priority)
  dont_filter := kw.dont_filter.getD r.dont_filter
  errback := kw.errback.getD (cbToInput r.errback)
  flags := kw.flags.getD (some r.flags)
  cb_kwargs := kw.cb_kwargs.getD (some (r._cb_kwargs.getD []))

/-- `Request.replace`: re-run the constructor on the merged arguments
(a new object is constructed in Python; the embedding returns the
constructed value, or the construction error). -/
def Request.replace (r : Request) (kw : KwArgs) : Except ReqError Request :=
  Request.init (r.replaceArgs kw)

/-- `Request.copy`: `return self.replace()`. -/
def Request.copy (r : Request) : Except ReqError Request :=
  r.replace {}

/-! ### from_curl -/

/-- `request_kwargs.update(kwargs)` on one key: a key present in the
explicit kwargs overrides the parsed one. -/
def pickKw {α : Type} (parsed explicit : Option α) : Option α :=
  match explicit with
  | some x => some x
  | none => parsed

/-- `request_kwargs.update(kwargs)`: explicit keys override parsed
keys, key by key. -/
def KwArgs.update (parsed explicit : KwArgs) : KwArgs where
  url := pickKw parsed.url explicit.url
  callback := pickKw parsed.callback explicit.callback
  method := pickKw parsed.method explicit.method
  headers := pickKw parsed.headers explicit.headers
  body := pickKw parsed.body explicit.body
  cookies := pickKw parsed.cookies explicit.cookies
  meta := pickKw parsed.meta explicit.meta
  encoding := pickKw parsed.encoding explicit.encoding
  priority := pickKw parsed.priority explicit.priority
  dont_filter := pickKw parsed.dont_filter explicit.dont_filter
  errback := pickKw parsed.errback explicit.errback
  flags := pickKw parsed.flags explicit.flags
  cb_kwargs := pickKw parsed.cb_kwargs explicit.cb_kwargs

/-- `cls(**request_kwargs)`: apply the constructor to a keyword mapping,
filling the declared defaults; `url` has no default, so a mapping
without it cannot be applied. -/
def KwArgs.toInitArgs (p : KwArgs) : Option InitArgs :=
  match p.url with
  | none => none
  | some u => some {
      url := u
      callback := p.callback.getD .pynone
      method := p.method.getD (.str "GET")
      headers := p.headers.getD none
      body := p.body.getD .pynone
      cookies := p.cookies.getD none
      meta := p.meta.getD none
      encoding := p.encoding.getD "utf-8"
      priority := p.priority.getD (.int 0)
      dont_filter := p.dont_filter.getD false
      errback := p.errback.getD .pynone
      flags := p.flags.getD none
      cb_kwargs := p.cb_kwargs.getD none }

/-- `Request.from_curl`: the external parser
(`scrapy.utils.curl.curl_to_request_kwargs`, code of this repository
that is not under src/, modelled from the spec as an opaque function
from the command text and the `ignore_unknown_options` flag to a
keyword-argument mapping) produces `request_kwargs`; the explicitly
passed kwargs are merged in with `update`, and the constructor is
applied to the result. -/
def Request.from_curl (parse : String → Bool → KwArgs) (curl_command : String)
    (ignore_unknown_options : Bool) (kwargs : KwArgs) : Except ReqError Request :=
  let request_kwargs := parse curl_command ignore_unknown_options
  match (KwArgs.update request_kwargs kwargs).toInitArgs with
  | some a => Request.init a
  | none => .error (.typeError "__init__ missing required argument: url")

/-! ### to_dict and _find_method -/

/-- `_find_method(obj, func)`: when the owner is supplied (truthy) and
`func` is a bound instance method, scan
`inspect.getmembers(obj, predicate=inspect.ismethod)` and return the
name of the first member whose underlying `__func__` is identical to
that of `func`; in every other case raise `ValueError` naming the
function and the searched object. -/
def _find_method (obj : Option Spider) (func : PyCallable) : Except ReqError String :=
  match obj, func with
  | some sp, .boundMethod fid _ _ =>
    match sp.members.find? (fun m => m.2 == fid) with
    | some nm => .ok nm.1
    | none => .error (.valueError ("Function " ++ func.reprStr ++
        " is not an instance method in: " ++ sp.reprStr))
  | _, _ => .error (.valueError ("Function " ++ func.reprStr ++
      " is not an instance method in: " ++ spiderRepr obj))

/-- A serialized callback slot of the output dict: either a resolved
method name or the stored value passed through unchanged. -/
inductive SerCb
  | name (s : String)
  | raw (c : Option PyCallable)
deriving DecidableEq, Repr

/-- The output mapping of `to_dict`: the four explicitly built keys plus
every remaining declared attribute (via `setdefault` from the live
instance). -/
structure RequestDict where
  url : String
  callback : SerCb
  errback : SerCb
  headers : Headers
  method : String
  body : Bytes
  cookies : Cookies
  meta : Dict
  encoding : String
  priority : Int
  dont_filter : Bool
  flags : List String
  cb_kwargs : Dict
deriving DecidableEq, Repr

/-- One callback slot of `to_dict`:
`_find_method(spider, cb) if callable(cb) else cb`.  A stored callback
is `None` or a callable (the constructor enforces it), so the
pass-through case is exactly the `None` case. -/
def serializeCb (spider : Option Spider) : Option PyCallable → Except ReqError SerCb
  | some c => (_find_method spider c).map SerCb.name
  | none => .ok (SerCb.raw none)

/-- `Request.to_dict(*, spider=None)`.  The dict literal evaluates the
`callback` entry before the `errback` entry, so a callback resolution
error is raised first. -/
def Request.to_dict (r : Request) (spider : Option Spider) :
    Except ReqError RequestDict :=
  match serializeCb spider r.callback with
  | .error e => .error e
  | .ok cb =>
    match serializeCb spider r.errback with
    | .error e => .error e
    | .ok eb => .ok {
        url := r._url
        callback := cb
        errback := eb
        headers := r.headers
        method := r.method
        body := r._body
        cookies := r.cookies
        meta := r._meta.getD []
        encoding := r._encoding
        priority := r.priority
        dont_filter := r.dont_filter
        flags := r.flags
        cb_kwargs := r._cb_kwargs.getD [] }

/-! ### Characterization of successful construction -/

/-- Inversion principle for `Request.init`: construction succeeds exactly
when the url is a string whose normalization passes the scheme check,
the priority is an integer and the callbacks are callable or `None`, and
then every field of the result is determined by the inputs. -/
theorem init_ok_iff (a : InitArgs) (r : Request) :
    Request.init a = .ok r ↔
    ∃ s n cb eb, a.url = .str s ∧ hasScheme (normUrl a.encoding s) = true ∧
      a.priority = .int n ∧ checkCallback a.callback "callback" = .ok cb ∧
      checkCallback a.errback "errback" = .ok eb ∧
      { _encoding := a.encoding,
        method := pyUpper a.method.toStr,
        _url := normUrl a.encoding s,
        _body := (match a.body with
                  | .pynone => ([] : Bytes)
                  | b => to_bytes b a.encoding),
        priority := n,
        callback := cb,
        errback := eb,
        cookies := storedCookies a.cookies,
        headers := storedHeaders a.encoding a.headers,
        dont_filter := a.dont_filter,
        _meta := storedMeta a.meta,
        _cb_kwargs := storedMeta a.cb_kwargs,
        flags := storedFlags a.flags : Request } = r := by
  unfold Request.init Request.initTrace
  cases hu : a.url with
  | nonStr ty => simp
  | str s =>
    dsimp only
    by_cases hs : hasScheme (normUrl a.encoding s) = true
    · rw [if_pos hs]
      cases hp : a.priority with
      | nonInt rep => simp [hs]
      | int n =>
        cases hcb : a.callback with
        | pynone =>
          cases heb : a.errback with
          | pynone => simp [checkCallback, hs]
          | callable f => simp [checkCallback, hs]
          | nonCallable ty => simp [checkCallback, hs]
        | callable f =>
          cases heb : a.errback with
          | pynone => simp [checkCallback, hs]
          | callable g => simp [checkCallback, hs]
          | nonCallable ty => simp [checkCallback, hs]
        | nonCallable ty => simp [checkCallback, hs]
    · rw [if_neg hs]
      simp [hs]

/-! ### Concrete example values used by witnesses and counterexamples -/

/-- A plain-function callable (as a lambda or module-level function). -/
def exLambda : PyCallable := .plainFn 1 "<lambda>"

/-- A bound method with underlying `__func__` identity 10 (one
particular wrapper object, number 99). -/
def exParse : PyCallable := .boundMethod 10 99 "<bound method MySpider.parse>"

/-- An owner object with methods `handle` (`__func__` 11) and `parse`
(`__func__` 10), in `getmembers` (alphabetical) order. -/
def exSpider : Spider :=
  { reprStr := "<MySpider>", members := [("handle", 11), ("parse", 10)] }

/-! ### Claim C1 -/

/--
C1, amended: `_find_method` raises whenever the owner is `None`, so
calling `to_dict` without a spider raises a `ValueError` naming the
function for every callable callback (and, when the callback slot
passes, for every callable errback); only the non-callable stored value
`None` passes through unchanged.
-/
theorem to_dict_without_spider_raises_for_callable (r : Request) (c : PyCallable)
    (h : r.callback = some c ∨ (r.callback = none ∧ r.errback = some c)) :
    r.to_dict none = .error (.valueError ("Function " ++ c.reprStr ++
      " is not an instance method in: " ++ spiderRepr none)) := by
  rcases h with hc | ⟨hc, he⟩
  · unfold Request.to_dict serializeCb
    rw [hc]
    cases c <;> rfl
  · unfold Request.to_dict serializeCb
    rw [hc, he]
    cases c <;> rfl

def c1Args : InitArgs :=
  { url := .str "http://example.com/", callback := .callable exLambda }

def c1Req : Request :=
  { _encoding := "utf-8", method := "GET", _url := "http://example.com/",
    _body := [], priority := 0, callback := some exLambda, errback := none,
    cookies := .dict [], headers := [], dont_filter := false,
    _meta := none, _cb_kwargs := none, flags := [] }

/--
C1, counterexample: a Request whose callback is a callable (a plain
function), constructed normally, makes `to_dict()` with no owning
spider raise a resolution `ValueError` — the callable is not stored
as-is under the `callback` key.
-/
theorem to_dict_without_spider_counterexample :
    Request.init c1Args = .ok c1Req ∧
    c1Req.to_dict none = .error (.valueError
      "Function <lambda> is not an instance method in: None") :=
  ⟨rfl, rfl⟩

/-- C1, witness for the amended theorem at a concrete request. -/
theorem to_dict_without_spider_raises_for_callable_witness :
    c1Req.to_dict none = .error (.valueError
      "Function <lambda> is not an instance method in: None") :=
  to_dict_without_spider_raises_for_callable c1Req exLambda (Or.inl rfl)

/-! ### Claim C2 -/

/--
C2 (confirmed): for a Request whose callback is a bound instance method
and a supplied owner, serialization scans the owner's methods comparing
underlying `__func__` identities: if some member matches, `to_dict`
stores that member's name under `callback`; if none matches, it raises
a `ValueError` naming the unmatched function and the searched object.
(The errback is `None` so that the callback slot alone decides the
outcome.)
-/
theorem to_dict_bound_method_resolution (r : Request) (sp : Spider)
    (fid wid : Nat) (rep : String)
    (hcb : r.callback = some (.boundMethod fid wid rep))
    (heb : r.errback = none) :
    ((∃ nm ∈ sp.members, nm.2 = fid) →
      ∃ name d, r.to_dict (some sp) = .ok d ∧ d.callback = .name name ∧
        (name, fid) ∈ sp.members) ∧
    ((∀ nm ∈ sp.members, nm.2 ≠ fid) →
      r.to_dict (some sp) = .error (.valueError ("Function " ++ rep ++
        " is not an instance method in: " ++ sp.reprStr))) := by
  unfold Request.to_dict serializeCb _find_method
  rw [hcb, heb]
  dsimp only
  constructor
  · rintro ⟨x, hx, hfid⟩
    have hs : (sp.members.find? (fun m => m.2 == fid)).isSome :=
      List.find?_isSome.mpr ⟨x, hx, by simp [hfid]⟩
    obtain ⟨nm, hnm⟩ := Option.isSome_iff_exists.mp hs
    have hmem := List.mem_of_find?_eq_some hnm
    have hfd : nm.2 = fid := by simpa using List.find?_some hnm
    rw [hnm]
    dsimp only [Except.map]
    refine ⟨nm.1, _, rfl, rfl, ?_⟩
    have hpair : (nm.1, fid) = nm := by
      rw [← hfd]
    rw [hpair]
    exact hmem
  · intro hno
    have hnone : sp.members.find? (fun m => m.2 == fid) = none :=
      List.find?_eq_none.mpr (fun x hx => by simp [hno x hx])
    rw [hnone]
    rfl

def c2Args : InitArgs :=
  { url := .str "https://example.com/page", callback := .callable exParse }

def c2Req : Request :=
  { _encoding := "utf-8", method := "GET", _url := "https://example.com/page",
    _body := [], priority := 0, callback := some exParse, errback := none,
    cookies := .dict [], headers := [], dont_filter := false,
    _meta := none, _cb_kwargs := none, flags := [] }

/-- C2, witness: the bound-method callback `parse` (underlying function
10) of `c2Req` resolves against the example owner to a member name. -/
theorem to_dict_bound_method_resolution_witness :
    ∃ name d, c2Req.to_dict (some exSpider) = .ok d ∧
      d.callback = .name name ∧ (name, 10) ∈ exSpider.members :=
  (to_dict_bound_method_resolution c2Req exSpider 10 99
    "<bound method MySpider.parse>" rfl rfl).1
    ⟨("parse", 10), by decide, rfl⟩

/-! ### Claim C3 -/

/--
C3, amended: `to_dict` has no special case for the `NO_CALLBACK`
sentinel.  `NO_CALLBACK` is a callable without a `__func__` attribute,
so `_find_method` raises for it whether or not a spider is supplied: a
Request constructed with `NO_CALLBACK` can never be serialized by
`to_dict`.
-/
theorem to_dict_NO_CALLBACK_always_raises (r : Request) (sp : Option Spider)
    (h : r.callback = some NO_CALLBACK) :
    r.to_dict sp = .error (.valueError ("Function " ++ NO_CALLBACK.reprStr ++
      " is not an instance method in: " ++ spiderRepr sp)) := by
  unfold Request.to_dict serializeCb _find_method
  rw [h]
  cases sp <;> rfl

def c3Args : InitArgs :=
  { url := .str "https://example.com", callback := .callable NO_CALLBACK }

def c3Req : Request :=
  { _encoding := "utf-8", method := "GET", _url := "https://example.com",
    _body := [], priority := 0, callback := some NO_CALLBACK, errback := none,
    cookies := .dict [], headers := [], dont_filter := false,
    _meta := none, _cb_kwargs := none, flags := [] }

/--
C3, counterexample: a Request constructed with the `NO_CALLBACK`
sentinel as its callback is built fine, but `to_dict` raises for it
both without and with a spider — the sentinel is not passed through.
-/
theorem to_dict_NO_CALLBACK_counterexample :
    Request.init c3Args = .ok c3Req ∧
    c3Req.to_dict none = .error (.valueError
      "Function <function NO_CALLBACK> is not an instance method in: None") ∧
    c3Req.to_dict (some exSpider) = .error (.valueError
      "Function <function NO_CALLBACK> is not an instance method in: <MySpider>") :=
  ⟨rfl, rfl, rfl⟩

/-- C3, witness for the amended theorem at a concrete request. -/
theorem to_dict_NO_CALLBACK_always_raises_witness :
    c3Req.to_dict (some exSpider) = .error (.valueError
      "Function <function NO_CALLBACK> is not an instance method in: <MySpider>") :=
  to_dict_NO_CALLBACK_always_raises c3Req (some exSpider) rfl

/-! ### Claim C4 -/

/--
C4 (confirmed): the url of every successfully constructed Request is
the ajax-fragment-escaped safety-encoding of the string input, and it
contains `://` or starts with `about:` or `data:`; whenever the
normalized form of a string input lacks all three, construction raises
the `Missing scheme` `ValueError`, so no Request exists with a
scheme-less url.
-/
theorem url_scheme_validation (a : InitArgs) :
    (∀ r, Request.init a = .ok r →
      (strContains r.url "://" || strStartsWith "about:" r.url ||
        strStartsWith "data:" r.url) = true ∧
      ∃ s, a.url = .str s ∧ r.url = normUrl a.encoding s) ∧
    (∀ s, a.url = .str s → hasScheme (normUrl a.encoding s) = false →
      Request.init a = .error (.valueError ("Missing scheme in request url: " ++
        normUrl a.encoding s))) := by
  constructor
  · intro r hr
    rw [init_ok_iff] at hr
    obtain ⟨s, n, cb, eb, hu, hs, hp, hc, he, hreq⟩ := hr
    subst hreq
    exact ⟨hs, s, hu, rfl⟩
  · intro s hu hs
    unfold Request.init Request.initTrace
    rw [hu]
    dsimp only
    rw [if_neg (by simp [hs])]

def c4Args : InitArgs := { url := .str "about:blank" }

def c4Req : Request :=
  { _encoding := "utf-8", method := "GET", _url := "about:blank",
    _body := [], priority := 0, callback := none, errback := none,
    cookies := .dict [], headers := [], dont_filter := false,
    _meta := none, _cb_kwargs := none, flags := [] }

def c4BadArgs : InitArgs := { url := .str "not-a-url" }

/-- C4, witness: `about:blank` constructs and satisfies the scheme
condition; `not-a-url` normalizes to a scheme-less url and raises. -/
theorem url_scheme_validation_witness :
    ((strContains c4Req.url "://" || strStartsWith "about:" c4Req.url ||
      strStartsWith "data:" c4Req.url) = true ∧
      ∃ s, c4Args.url = .str s ∧ c4Req.url = normUrl c4Args.encoding s) ∧
    Request.init c4BadArgs = .error (.valueError
      ("Missing scheme in request url: " ++ normUrl "utf-8" "not-a-url")) :=
  ⟨(url_scheme_validation c4Args).1 c4Req rfl,
   (url_scheme_validation c4BadArgs).2 "not-a-url" rfl rfl⟩

/-! ### Claim C5 -/

/--
C5, amended: a non-string `url`, a non-integer `priority`, and a
non-callable non-`None` `callback`/`errback` each cause construction to
raise a descriptive `TypeError` when their check runs — but not before
any other field is processed: the checks run in the fixed source order
(encoding and method are always processed first, then url, body,
priority, callback, errback), so each error is raised only after every
earlier field has been processed.  The returned traces list exactly the
fields processed before each error.
-/
theorem constructor_type_errors (a : InitArgs) :
    (∀ ty, a.url = .nonStr ty →
      Request.initTrace a = (.error (.typeError ("Request url must be str, got " ++ ty)),
        ["encoding", "method"])) ∧
    (∀ s rep, a.url = .str s → hasScheme (normUrl a.encoding s) = true →
      a.priority = .nonInt rep →
      Request.initTrace a = (.error (.typeError ("Request priority not an integer: " ++ rep)),
        ["encoding", "method", "url", "body"])) ∧
    (∀ s n ty, a.url = .str s → hasScheme (normUrl a.encoding s) = true →
      a.priority = .int n → a.callback = .nonCallable ty →
      Request.initTrace a = (.error (.typeError ("callback must be a callable, got " ++ ty)),
        ["encoding", "method", "url", "body", "priority"])) ∧
    (∀ s n cb ty, a.url = .str s → hasScheme (normUrl a.encoding s) = true →
      a.priority = .int n → checkCallback a.callback "callback" = .ok cb →
      a.errback = .nonCallable ty →
      Request.initTrace a = (.error (.typeError ("errback must be a callable, got " ++ ty)),
        ["encoding", "method", "url", "body", "priority", "callback"])) := by
  refine ⟨?_, ?_, ?_, ?_⟩
  · intro ty hu
    unfold Request.initTrace
    rw [hu]
  · intro s rep hu hs hp
    unfold Request.initTrace
    rw [hu]
    dsimp only
    rw [if_pos hs, hp]
    rfl
  · intro s n ty hu hs hp hcb
    unfold Request.initTrace
    rw [hu]
    dsimp only
    rw [if_pos hs, hp, hcb]
    rfl
  · intro s n cb ty hu hs hp hcb heb
    unfold Request.initTrace
    rw [hu]
    dsimp only
    rw [if_pos hs, hp, hcb, heb]
    rfl

def c5Args : InitArgs :=
  { url := .str "http://example.com/", priority := .nonInt "1.5" }

/--
C5, counterexample: with a valid url and a non-integer priority, the
priority `TypeError` is raised only after the encoding, method, url and
body fields have all been processed — not before any other field.
-/
theorem constructor_error_order_counterexample :
    Request.initTrace c5Args =
      (.error (.typeError "Request priority not an integer: 1.5"),
        ["encoding", "method", "url", "body"]) ∧
    (Request.initTrace c5Args).2 ≠ [] :=
  ⟨rfl, by decide⟩

def c5UrlArgs : InitArgs := { url := .nonStr "int" }

/-- C5, witness for the amended theorem: a non-string url and a
non-integer priority each raise their descriptive TypeError, with the
recorded processing traces. -/
theorem constructor_type_errors_witness :
    Request.initTrace c5UrlArgs =
      (.error (.typeError "Request url must be str, got int"),
        ["encoding", "method"]) ∧
    Request.initTrace c5Args =
      (.error (.typeError "Request priority not an integer: 1.5"),
        ["encoding", "method", "url", "body"]) :=
  ⟨(constructor_type_errors c5UrlArgs).1 "int" rfl,
   (constructor_type_errors c5Args).2.1 "http://example.com/" "1.5" rfl rfl rfl⟩

/-! ### Claim C6 -/

theorem checkCallback_cbToInput (c : Option PyCallable) (label : String) :
    checkCallback (cbToInput c) label = .ok c := by
  cases c <;> rfl

theorem storedCookies_restore (x : Option Cookies) :
    storedCookies (some (storedCookies x)) = storedCookies x := by
  cases x with
  | none => rfl
  | some c =>
    cases c with
    | dict d => cases d <;> rfl
    | list l => cases l <;> rfl

theorem storedHeaders_hdrs (e : String) (h : Headers) :
    storedHeaders e (some (.hdrs h)) = h := by
  cases h <;> rfl

theorem storedMeta_restore (m : Option Dict) :
    storedMeta (some ((storedMeta m).getD [])) = storedMeta m := by
  cases m with
  | none => rfl
  | some d => cases d <;> rfl

theorem storedFlags_restore (f : Option (List String)) :
    storedFlags (some (storedFlags f)) = storedFlags f := by
  cases f <;> rfl

/--
C6 (confirmed): for every constructed Request, `replace()` with no
overrides re-runs the constructor on the declared attributes and yields
a request equal to the original in every declared attribute (the
embedding proves equality of the whole state; in Python the fresh
construction makes the result a distinct object, an identity fact
outside a value model); `replace(method="POST")` yields the same state
with only `method` replaced by `"POST"`; and `copy()` is definitionally
`replace()` with no overrides.
-/
theorem replace_copy_roundtrip (a : InitArgs) (r : Request)
    (h : Request.init a = .ok r) :
    r.replace {} = .ok r ∧
    r.replace { method := some (.str "POST") } = .ok { r with method := "POST" } ∧
    r.copy = r.replace {} := by
  rw [init_ok_iff] at h
  obtain ⟨s, n, cb, eb, hu, hs, hp, hc, he, hreq⟩ := h
  subst hreq
  refine ⟨?_, ?_, rfl⟩
  · unfold Request.replace
    rw [init_ok_iff]
    refine ⟨normUrl a.encoding s, n, cb, eb, rfl, ?_, rfl,
      checkCallback_cbToInput _ _, checkCallback_cbToInput _ _, ?_⟩
    · show hasScheme (normUrl a.encoding (normUrl a.encoding s)) = true
      rw [normUrl_idem]
      exact hs
    · show ({ _encoding := a.encoding,
              method := pyUpper (pyUpper a.method.toStr),
              _url := normUrl a.encoding (normUrl a.encoding s),
              _body := (match a.body with
                        | .pynone => ([] : Bytes)
                        | b => to_bytes b a.encoding),
              priority := n, callback := cb, errback := eb,
              cookies := storedCookies (some (storedCookies a.cookies)),
              headers := storedHeaders a.encoding
                (some (.hdrs (storedHeaders a.encoding a.headers))),
              dont_filter := a.dont_filter,
              _meta := storedMeta (some ((storedMeta a.meta).getD [])),
              _cb_kwargs := storedMeta (some ((storedMeta a.cb_kwargs).getD [])),
              flags := storedFlags (some (storedFlags a.flags)) } : Request) = _
      rw [pyUpper_idem, normUrl_idem, storedCookies_restore, storedHeaders_hdrs,
         storedMeta_restore, storedMeta_restore, storedFlags_restore]
  · unfold Request.replace
    rw [init_ok_iff]
    refine ⟨normUrl a.encoding s, n, cb, eb, rfl, ?_, rfl,
      checkCallback_cbToInput _ _, checkCallback_cbToInput _ _, ?_⟩
    · show hasScheme (normUrl a.encoding (normUrl a.encoding s)) = true
      rw [normUrl_idem]
      exact hs
    · show ({ _encoding := a.encoding,
              method := "POST",
              _url := normUrl a.encoding (normUrl a.encoding s),
              _body := (match a.body with
                        | .pynone => ([] : Bytes)
                        | b => to_bytes b a.encoding),
              priority := n, callback := cb, errback := eb,
              cookies := storedCookies (some (storedCookies a.cookies)),
              headers := storedHeaders a.encoding
                (some (.hdrs (storedHeaders a.encoding a.headers))),
              dont_filter := a.dont_filter,
              _meta := storedMeta (some ((storedMeta a.meta).getD [])),
              _cb_kwargs := storedMeta (some ((storedMeta a.cb_kwargs).getD [])),
              flags := storedFlags (some (storedFlags a.flags)) } : Request) = _
      rw [normUrl_idem, storedCookies_restore, storedHeaders_hdrs,
         storedMeta_restore, storedMeta_restore, storedFlags_restore]

def c6Args : InitArgs :=
  { url := .str "http://example.com/a", callback := .callable exParse,
    method := .str "get", headers := some (.map [("Accept", "text")]),
    body := .str "x", cookies := some (.dict [("k", "v")]),
    meta := some [("depth", "1")], encoding := "utf-8", priority := .int 2,
    dont_filter := true, errback := .pynone, flags := some ["f1"],
    cb_kwargs := none }

def c6Req : Request :=
  { _encoding := "utf-8", method := "GET", _url := "http://example.com/a",
    _body := [120], priority := 2, callback := some exParse, errback := none,
    cookies := .dict [("k", "v")], headers := [("ACCEPT", [116, 101, 120, 116])],
    dont_filter := true, _meta := some [("depth", "1")], _cb_kwargs := none,
    flags := ["f1"] }

/-- C6, witness at a concrete request with every kind of field set. -/
theorem replace_copy_roundtrip_witness :
    c6Req.replace {} = .ok c6Req ∧
    c6Req.replace { method := some (.str "POST") } =
      .ok { c6Req with method := "POST" } ∧
    c6Req.copy = c6Req.replace {} :=
  replace_copy_roundtrip c6Args c6Req rfl

/-! ### Claim C7 -/

/--
C7 (confirmed): after construction the body is always a byte sequence
(the `_body` slot has byte-list type, never `None`): an absent (`None`)
body input yields empty bytes, a bytes input is stored as those bytes,
and a string input is stored as its encoding under the request's
declared encoding.
-/
theorem body_always_bytes (a : InitArgs) (r : Request)
    (h : Request.init a = .ok r) :
    r.body = (match a.body with
              | .pynone => ([] : Bytes)
              | .str s => pyEncode a.encoding s
              | .bytes b => b) := by
  rw [init_ok_iff] at h
  obtain ⟨s, n, cb, eb, hu, hs, hp, hc, he, hreq⟩ := h
  subst hreq
  cases a.body <;> rfl

def c7Args : InitArgs := { url := .str "http://example.com/", body := .str "ab" }

def c7Req : Request :=
  { _encoding := "utf-8", method := "GET", _url := "http://example.com/",
    _body := [97, 98], priority := 0, callback := none, errback := none,
    cookies := .dict [], headers := [], dont_filter := false,
    _meta := none, _cb_kwargs := none, flags := [] }

/-- C7, witness: the string body "ab" is stored as its encoding under
the declared utf-8 encoding. -/
theorem body_always_bytes_witness :
    c7Req.body = pyEncode "utf-8" "ab" :=
  body_always_bytes c7Args c7Req rfl

/-! ### Claim C8 -/

/--
C8 (confirmed): for every Request — in particular one constructed with
`meta=None` and `cb_kwargs=None`, whose private slots hold `None` —
reading the `meta` or `cb_kwargs` accessor returns a mapping (the
`Dict`-typed first component, never `None`); after the access the
private slot holds `some` of that mapping, and any further access
returns the same mapping with the state unchanged, so each remains a
mapping once observed.
-/
theorem meta_cb_kwargs_always_mappings (r : Request) :
    (r.metaAccess.2)._meta = some r.metaAccess.1 ∧
    (r.metaAccess.2).metaAccess = (r.metaAccess.1, r.metaAccess.2) ∧
    (r.cbKwargsAccess.2)._cb_kwargs = some r.cbKwargsAccess.1 ∧
    (r.cbKwargsAccess.2).cbKwargsAccess =
      (r.cbKwargsAccess.1, r.cbKwargsAccess.2) := by
  unfold Request.metaAccess Request.cbKwargsAccess
  cases hm : r._meta <;> cases hk : r._cb_kwargs <;> simp [hm, hk]

/-! ### Claim C9 -/

theorem pickKw_eq {α : Type} (x y : Option α) :
    pickKw x y = if y.isSome then y else x := by
  cases y <;> rfl

/--
C9 (confirmed): `from_curl` builds the Request from the parser-produced
keyword mapping updated with the explicitly passed keyword arguments:
for every one of the thirteen constructor keys, an explicitly passed
argument overrides the same-named parsed value and an absent one leaves
the parsed value; the ordinary constructor is then applied to the
merged mapping, so the same validation runs as for direct construction
(and a merged mapping without a url cannot be applied at all).
-/
theorem from_curl_override_and_validation (parse : String → Bool → KwArgs)
    (cmd : String) (iu : Bool) (p e : KwArgs) :
    ((KwArgs.update p e).url = if e.url.isSome then e.url else p.url) ∧
    ((KwArgs.update p e).callback = if e.callback.isSome then e.callback else p.callback) ∧
    ((KwArgs.update p e).method = if e.method.isSome then e.method else p.method) ∧
    ((KwArgs.update p e).headers = if e.headers.isSome then e.headers else p.headers) ∧
    ((KwArgs.update p e).body = if e.body.isSome then e.body else p.body) ∧
    ((KwArgs.update p e).cookies = if e.cookies.isSome then e.cookies else p.cookies) ∧
    ((KwArgs.update p e).meta = if e.meta.isSome then e.meta else p.meta) ∧
    ((KwArgs.update p e).encoding = if e.encoding.isSome then e.encoding else p.encoding) ∧
    ((KwArgs.update p e).priority = if e.priority.isSome then e.priority else p.priority) ∧
    ((KwArgs.update p e).dont_filter = if e.dont_filter.isSome then e.dont_filter else p.dont_filter) ∧
    ((KwArgs.update p e).errback = if e.errback.isSome then e.errback else p.errback) ∧
    ((KwArgs.update p e).flags = if e.flags.isSome then e.flags else p.flags) ∧
    ((KwArgs.update p e).cb_kwargs = if e.cb_kwargs.isSome then e.cb_kwargs else p.cb_kwargs) ∧
    (∀ a, (KwArgs.update (parse cmd iu) e).toInitArgs = some a →
      Request.from_curl parse cmd iu e = Request.init a) ∧
    ((KwArgs.update (parse cmd iu) e).toInitArgs = none →
      Request.from_curl parse cmd iu e =
        .error (.typeError "__init__ missing required argument: url")) := by
  refine ⟨pickKw_eq _ _, pickKw_eq _ _, pickKw_eq _ _, pickKw_eq _ _,
    pickKw_eq _ _, pickKw_eq _ _, pickKw_eq _ _, pickKw_eq _ _,
    pickKw_eq _ _, pickKw_eq _ _, pickKw_eq _ _, pickKw_eq _ _,
    pickKw_eq _ _, ?_, ?_⟩
  · intro a ha
    unfold Request.from_curl
    dsimp only
    rw [ha]
  · intro ha
    unfold Request.from_curl
    dsimp only
    rw [ha]

def c9Parse : String → Bool → KwArgs := fun _ _ =>
  { url := some (.str "http://example.com/"),
    method := some (.str "post"),
    headers := some (some (.map [("Accept", "text")])) }

def c9Explicit : KwArgs := { method := some (.str "GET") }

def c9Merged : InitArgs :=
  { url := .str "http://example.com/",
    method := .str "GET",
    headers := some (.map [("Accept", "text")]) }

/-- C9, witness: the explicit method overrides the parsed one, and the
merged mapping feeds the ordinary constructor. -/
theorem from_curl_override_and_validation_witness :
    ((KwArgs.update (c9Parse "curl http://example.com/ -X POST" true) c9Explicit).method =
      if c9Explicit.method.isSome then c9Explicit.method
      else (c9Parse "curl http://example.com/ -X POST" true).method) ∧
    Request.from_curl c9Parse "curl http://example.com/ -X POST" true c9Explicit =
      Request.init c9Merged :=
  ⟨(from_curl_override_and_validation c9Parse "curl http://example.com/ -X POST" true
      (c9Parse "curl http://example.com/ -X POST" true) c9Explicit).2.2.1,
   (from_curl_override_and_validation c9Parse "curl http://example.com/ -X POST" true
      (c9Parse "curl http://example.com/ -X POST" true)
      c9Explicit).2.2.2.2.2.2.2.2.2.2.2.2.2.1 c9Merged rfl⟩

/-! ### Claim C10 -/

/--
C10 (confirmed): the `method` field is silently coerced, never
type-checked: for every constructor input, string or not, the method
step always completes (`"method"` is always among the processed fields
whatever the outcome, so no input ever raises a type error for the
method field), and on success the stored method is
`str(method).upper()`.
-/
theorem method_coerced_never_checked (a : InitArgs) :
    "method" ∈ (Request.initTrace a).2 ∧
    (∀ r, Request.init a = .ok r → r.method = pyUpper a.method.toStr) := by
  constructor
  · unfold Request.initTrace
    cases a.url with
    | nonStr ty => simp
    | str s =>
      dsimp only
      by_cases hs : hasScheme (normUrl a.encoding s) = true
      · rw [if_pos hs]
        cases a.priority with
        | nonInt rep => simp
        | int n =>
          cases hcb : checkCallback a.callback "callback" with
          | error e => simp
          | ok cb =>
            cases heb : checkCallback a.errback "errback" with
            | error e => simp
            | ok eb => simp
      · rw [if_neg hs]
        simp
  · intro r hr
    rw [init_ok_iff] at hr
    obtain ⟨s, n, cb, eb, hu, hs, hp, hc, he, hreq⟩ := hr
    subst hreq
    rfl

def c10Args : InitArgs :=
  { url := .str "http://example.com/", method := .other "5" }

def c10Req : Request :=
  { _encoding := "utf-8", method := "5", _url := "http://example.com/",
    _body := [], priority := 0, callback := none, errback := none,
    cookies := .dict [], headers := [], dont_filter := false,
    _meta := none, _cb_kwargs := none, flags := [] }

/-- C10, witness: the non-string method value `5` does not raise; the
stored method is `str(5).upper() = "5"`. -/
theorem method_coerced_never_checked_witness :
    "method" ∈ (Request.initTrace c10Args).2 ∧
    c10Req.method = pyUpper c10Args.method.toStr :=
  ⟨(method_coerced_never_checked c10Args).1,
   (method_coerced_never_checked c10Args).2 c10Req rfl⟩
